import Mathlib

/-!
Verification of the Riemann-sum integral calculator.

This file gives a shallow embedding of the numerical core of the
repository:

* `riemann_sum` — the procedural Riemann-sum routine of
  `Clase_Integrales.py` (the file defines it twice with identical bodies;
  the later definition is the one in effect).
* `RiemannIntegrator.integrar` — the object-oriented variant of
  `Clase Integrales/Int.py`.
* `verificar_dominio` — the domain-validity checker (canonical copy:
  the effective, second definition in `Clase_Integrales.py`, with
  `n_verificacion = 1000`, which also matches `Int.py` up to exception
  scoping).
* `comparacionError` — the inline absolute/relative error comparison of
  `interfaz_usuario` (`Clase_Integrales.py`) and
  `CalculadoraIntegrales._mostrar_resultados` (`Int.py`).

Modelling conventions: Python floats are modelled as exact elements of a
linear ordered field (`ℝ` for the domain checker, which probes π, e, √2,
√3); a user-supplied function is `α → Option α`, where `none` models an
evaluation that does not produce a finite number (a raised exception, or
a `None`/NaN/±Infinity result — `verificar_dominio` treats all of these
alike).  A raised Python exception escaping a routine is modelled by the
routine returning `Except.error`.
-/

/-- A raised Python exception. `evalFault` stands for whatever exception a
user-supplied function raises when evaluated at a bad point. -/
inductive PyError where
  | valueError : String → PyError
  | zeroDivisionError : PyError
  | evalFault : PyError
deriving DecidableEq

variable {α : Type} [LinearOrderedField α]

/-- The `for i in range(n)` loop of `riemann_sum`
(`Clase_Integrales.py`, lines 466–487 of the effective copy).  Each
iteration dispatches on `method`; an evaluation of `f` that does not
return a finite number is a raised exception (`evalFault`) aborting the
loop, and an unrecognized `method` raises `ValueError` on the first
iteration, exactly as the Python `else` branch inside the loop does. -/
def riemannLoop (f : α → Option α) (a dx : α) (method : String) :
    List ℕ → α → Except PyError α
  | [], suma => .ok suma
  | i :: resto, suma =>
    if method = "left" then
      match f (a + (i : α) * dx) with
      | some v => riemannLoop f a dx method resto (suma + v * dx)
      | none => .error .evalFault
    else if method = "right" then
      match f (a + ((i : α) + 1) * dx) with
      | some v => riemannLoop f a dx method resto (suma + v * dx)
      | none => .error .evalFault
    else if method = "midpoint" then
      match f (a + ((i : α) + 1 / 2) * dx) with
      | some v => riemannLoop f a dx method resto (suma + v * dx)
      | none => .error .evalFault
    else if method = "trapezoid" then
      match f (a + (i : α) * dx), f (a + ((i : α) + 1) * dx) with
      | some vl, some vr =>
          riemannLoop f a dx method resto (suma + (vl + vr) / 2 * dx)
      | none, _ => .error .evalFault
      | some _, none => .error .evalFault
    else .error (.valueError "Método no reconocido. Use 'left', 'right', 'midpoint' o 'trapezoid'")

/-- `riemann_sum(f, a, b, n, method)` of `Clase_Integrales.py`
(lines 442–489 of the effective copy): reject `n ≤ 0`, set
`delta_x = (b - a) / n`, accumulate over `i in range(n)`. -/
def riemann_sum (f : α → Option α) (a b : α) (n : ℤ) (method : String) :
    Except PyError α :=
  if n ≤ 0 then .error (.valueError "El número de subintervalos debe ser positivo")
  else riemannLoop f a ((b - a) / (n : α)) method (List.range n.toNat) 0

/-- Modelled from the spec's words (claim C1): the sample the rule takes
on subinterval `i` for a totally defined integrand `g`. -/
def ruleSample (g : α → α) (a dx : α) (method : String) (i : ℕ) : α :=
  if method = "left" then g (a + (i : α) * dx)
  else if method = "right" then g (a + ((i : α) + 1) * dx)
  else if method = "midpoint" then g (a + ((i : α) + 1 / 2) * dx)
  else (g (a + (i : α) * dx) + g (a + ((i : α) + 1) * dx)) / 2

/-- Modelled from the spec's words (claim C1): the sum, taken in index
order `i = 0..n-1`, of `sample * Δx` with `Δx = (b-a)/n`. -/
def riemannSpecSum (g : α → α) (a b : α) (n : ℤ) (method : String) : α :=
  ((List.range n.toNat).map
    (fun i => ruleSample g a ((b - a) / (n : α)) method i * ((b - a) / (n : α)))).sum

/-- The points the `riemann_sum` loop body evaluates `f` at on
subinterval `i` (`Clase_Integrales.py`, lines 468–481 of the effective
copy): the left edge, right edge, or midpoint for the one-sample rules,
and both edges in evaluation order for `trapezoid`. -/
def puntosMuestreados (a dx : α) (method : String) (i : ℕ) : List α :=
  if method = "left" then [a + (i : α) * dx]
  else if method = "right" then [a + ((i : α) + 1) * dx]
  else if method = "midpoint" then [a + ((i : α) + 1 / 2) * dx]
  else [a + (i : α) * dx, a + ((i : α) + 1) * dx]

/-- The method table of `RiemannIntegrator` (`Int.py`, lines 68–73); the
constructor accepts exactly these keys. -/
def METODOS : List String := ["left", "right", "midpoint", "trapezoid"]

/-- The state of a constructed `RiemannIntegrator` (`Int.py`): the wrapped
function and the chosen method string. -/
structure RiemannIntegrator (α : Type) where
  funcion : α → Option α
  metodo : String

/-- `RiemannIntegrator.__init__` (`Int.py`, lines 75–79): raises
`ValueError` when the method is not a key of `METODOS`. -/
def RiemannIntegrator.build (funcion : α → Option α) (metodo : String) :
    Except PyError (RiemannIntegrator α) :=
  if metodo ∈ METODOS then .ok ⟨funcion, metodo⟩
  else .error (.valueError "Método no válido")

/-- The `for i in range(n)` loop of `RiemannIntegrator.integrar`
(`Int.py`, lines 88–101).  Identical to `riemannLoop` except that the
`if/elif` chain has no `else`: an unrecognized method silently adds
nothing (the constructor rules that case out). -/
def integrarLoop (f : α → Option α) (a dx : α) (metodo : String) :
    List ℕ → α → Except PyError α
  | [], suma => .ok suma
  | i :: resto, suma =>
    if metodo = "left" then
      match f (a + (i : α) * dx) with
      | some v => integrarLoop f a dx metodo resto (suma + v * dx)
      | none => .error .evalFault
    else if metodo = "right" then
      match f (a + ((i : α) + 1) * dx) with
      | some v => integrarLoop f a dx metodo resto (suma + v * dx)
      | none => .error .evalFault
    else if metodo = "midpoint" then
      match f (a + ((i : α) + 1 / 2) * dx) with
      | some v => integrarLoop f a dx metodo resto (suma + v * dx)
      | none => .error .evalFault
    else if metodo = "trapezoid" then
      match f (a + (i : α) * dx), f (a + ((i : α) + 1) * dx) with
      | some vl, some vr =>
          integrarLoop f a dx metodo resto (suma + (vl + vr) / 2 * dx)
      | none, _ => .error .evalFault
      | some _, none => .error .evalFault
    else integrarLoop f a dx metodo resto suma

/-- `RiemannIntegrator.integrar(a, b, n)` (`Int.py`, lines 81–103). -/
def RiemannIntegrator.integrar (R : RiemannIntegrator α) (a b : α) (n : ℤ) :
    Except PyError α :=
  if n ≤ 0 then .error (.valueError "El número de subintervalos debe ser positivo")
  else integrarLoop R.funcion a ((b - a) / (n : α)) R.metodo (List.range n.toNat) 0

/-- Python float division: `x / y` raises `ZeroDivisionError` when `y == 0`. -/
noncomputable def pyDiv (x y : ℝ) : Except PyError ℝ :=
  if y = 0 then .error .zeroDivisionError else .ok (x / y)

/-- The inline error comparison (`Clase_Integrales.py`, lines 985–991;
`Int.py`, lines 421–430): `error = abs(exacto - resultado)` and the
displayed relative error `(error / abs(exacto)) * 100`.  The second
component records the fate of the relative-error computation: `.ok` the
displayed percentage, or the raised `ZeroDivisionError`.  The only guard
in the source is the availability of `exacto` (`is not None` in the
procedural copy, `not np.isnan(exacto)` in the OO copy) — there is no
`exacto != 0` guard. -/
noncomputable def comparacionError (resultado exacto : ℝ) : ℝ × Except PyError ℝ :=
  (|exacto - resultado|, (pyDiv |exacto - resultado| |exacto|).map (fun r => r * 100))

/-- `np.linspace(a, b, num)`: `num` evenly spaced points from `a` to `b`
inclusive, point `i` being `a + i * (b - a) / (num - 1)`. -/
noncomputable def linspace (a b : ℝ) (num : ℕ) : List ℝ :=
  (List.range num).map (fun (i : ℕ) => a + (i : ℝ) * ((b - a) / ((num : ℝ) - 1)))

/-- Python `int(x)` on a float: truncation toward zero. -/
noncomputable def pyInt (x : ℝ) : ℤ := if 0 ≤ x then ⌊x⌋ else ⌈x⌉

/-- Python `range(lo, hi)` over integers. -/
def pyRange (lo hi : ℤ) : List ℤ :=
  (List.range (hi - lo).toNat).map (fun (k : ℕ) => lo + (k : ℤ))

/-- `np.mean`. -/
noncomputable def npMean (l : List ℝ) : ℝ := l.sum / l.length

/-- `np.std` (population standard deviation). -/
noncomputable def npStd (l : List ℝ) : ℝ :=
  Real.sqrt (npMean (l.map (fun x => (x - npMean l) ^ 2)))

/-- `puntos_uniformes = np.linspace(a, b, n_verificacion)` with
`n_verificacion = 1000` (`Clase_Integrales.py`, lines 514–515 of the
effective copy; `Int.py`, line 267). -/
noncomputable def puntosUniformes (a b : ℝ) : List ℝ := linspace a b 1000

/-- `valores = [f(x) for x in puntos_uniformes]` (line 527).  When this
list is built, step 2 has already established that every entry is a
finite number, so the `getD _ 0` extraction of the modelled sample never
takes its default. -/
noncomputable def valoresUniformes (f : ℝ → Option ℝ) (a b : ℝ) : List ℝ :=
  (puntosUniformes a b).map (fun x => (f x).getD 0)

/-- `diferencias = np.abs(np.diff(valores))` (line 528). -/
noncomputable def diferenciasAbs (f : ℝ → Option ℝ) (a b : ℝ) : List ℝ :=
  ((valoresUniformes f a b).zip (valoresUniformes f a b).tail).map
    (fun p => |p.2 - p.1|)

/-- `umbral_cambio = np.mean(diferencias) + 3 * np.std(diferencias)` (line 531). -/
noncomputable def umbralCambio (f : ℝ → Option ℝ) (a b : ℝ) : ℝ :=
  npMean (diferenciasAbs f a b) + 3 * npStd (diferenciasAbs f a b)

/-- `indices_sospechosos = np.where(diferencias > umbral_cambio)[0]` (line 532). -/
noncomputable def indicesSospechosos (f : ℝ → Option ℝ) (a b : ℝ) : List ℕ :=
  (List.range (diferenciasAbs f a b).length).filter
    (fun i => decide ((diferenciasAbs f a b).getD i 0 > umbralCambio f a b))

/-- The refined probe points of step 3 (lines 534–546): for each
suspicious index, `np.linspace(puntos_uniformes[i], puntos_uniformes[i+1], 100)`. -/
noncomputable def puntosRefinados (f : ℝ → Option ℝ) (a b : ℝ) : List ℝ :=
  (indicesSospechosos f a b).flatMap (fun i =>
    linspace ((puntosUniformes a b).getD i 0) ((puntosUniformes a b).getD (i + 1) 0) 100)

/-- The integers appended to `puntos_especiales` (line 552):
`[i for i in range(int(a), int(b)+1) if a <= i <= b]`. -/
noncomputable def enterosEspeciales (a b : ℝ) : List ℝ :=
  ((pyRange (pyInt a) (pyInt b + 1)).map (fun (i : ℤ) => (i : ℝ))).filter
    (fun x => decide (a ≤ x ∧ x ≤ b))

/-- The common fractions appended to `puntos_especiales` (lines 554–558):
`j/i` for `i in range(1, 21)`, `j in range(i)`, kept when inside `[a, b]`.
Here `i = i0 + 1` with `i0 in range(20)`. -/
noncomputable def fraccionesComunes (a b : ℝ) : List ℝ :=
  (List.range 20).flatMap (fun i0 =>
    ((List.range (i0 + 1)).map (fun (j : ℕ) => (j : ℝ) / ((i0 : ℝ) + 1))).filter
      (fun p => decide (a ≤ p ∧ p ≤ b)))

/-- The special constants appended to `puntos_especiales` (lines 560–561):
`[math.pi, math.e, math.sqrt(2), math.sqrt(3)]` kept when inside `[a, b]`. -/
noncomputable def constantesEspeciales (a b : ℝ) : List ℝ :=
  ([Real.pi, Real.exp 1, Real.sqrt 2, Real.sqrt 3]).filter
    (fun v => decide (a ≤ v ∧ v ≤ b))

/-- `puntos_especiales` (lines 550–561).  The source iterates over
`set(puntos_especiales)`; iterating over the list with duplicates probes
the same points, so the pass verdict is unchanged. -/
noncomputable def puntosEspeciales (a b : ℝ) : List ℝ :=
  enterosEspeciales a b ++ fraccionesComunes a b ++ constantesEspeciales a b

/-- The body of the special-point loop (lines 564–588): the point itself
always, `punto - tolerancia` when `punto > a + tolerancia`, and
`punto + tolerancia` when `punto < b - tolerancia`; the result is `true`
exactly when one of these probes fails to produce a finite number. -/
noncomputable def probeFalla (f : ℝ → Option ℝ) (a b tolerancia punto : ℝ) : Bool :=
  (f punto).isNone
    || (decide (punto > a + tolerancia) && (f (punto - tolerancia)).isNone)
    || (decide (punto < b - tolerancia) && (f (punto + tolerancia)).isNone)

/-- `verificar_dominio(f, a, b, tolerancia)` (`Clase_Integrales.py`,
lines 491–590 of the effective copy; `Int.py`, lines 261–305).  The four
steps in order, each returning `False` as soon as a probe fails:
endpoints, the 1000-point uniform grid, the refined sampling of the
statistically suspicious gaps, and the special points with their
`± tolerancia` neighbours.  Every evaluation failure (exception, `None`,
NaN, ±Infinity — all modelled by `none`) yields `false`; the nested
per-gap and per-point loops are flattened here, which preserves the
verdict. -/
noncomputable def verificar_dominio (f : ℝ → Option ℝ) (a b : ℝ) (tolerancia : ℝ) : Bool :=
  if (f a).isNone || (f b).isNone then false
  else if (puntosUniformes a b).any (fun x => (f x).isNone) then false
  else if (puntosRefinados f a b).any (fun x => (f x).isNone) then false
  else if (puntosEspeciales a b).any (fun punto => probeFalla f a b tolerancia punto) then false
  else true

/-- Every point at which a complete run of `verificar_dominio` evaluates
`f`: the endpoints, the uniform grid (probed in step 2 and re-evaluated
for `valores` in step 3), the refined points of the suspicious gaps, and
the special points with their guarded `± tolerancia` probes.  A run that
returns early evaluates `f` on a subset of this list. -/
noncomputable def puntosEvaluados (f : ℝ → Option ℝ) (a b tolerancia : ℝ) : List ℝ :=
  a :: b :: (puntosUniformes a b ++ puntosRefinados f a b ++
    (puntosEspeciales a b).flatMap (fun punto =>
      punto :: ((if punto > a + tolerancia then [punto - tolerancia] else []) ++
        (if punto < b - tolerancia then [punto + tolerancia] else []))))

/-- `f(x) = 1/x` as a Python callable: `1/0.0` raises `ZeroDivisionError`,
modelled by `none`. -/
noncomputable def unoEntreX : ℝ → Option ℝ := fun x => if x = 0 then none else some (1 / x)

/-- `f(x) = x**2`: defined and finite at every real. -/
noncomputable def cuadrado : ℝ → Option ℝ := fun x => some (x ^ 2)

/-- A loop over a totally defined integrand never faults: it returns the
accumulator plus the rule samples times `Δx`, summed in index order. -/
theorem riemannLoop_total (g : α → α) (a dx : α) (method : String)
    (hm : method ∈ METODOS) (l : List ℕ) :
    ∀ suma : α,
      riemannLoop (fun x => some (g x)) a dx method l suma =
        .ok (suma + (l.map (fun i => ruleSample g a dx method i * dx)).sum) := by
  induction l with
  | nil => intro suma; simp [riemannLoop]
  | cons i resto ih =>
    intro suma
    simp only [METODOS, List.mem_cons, List.not_mem_nil, or_false] at hm
    rcases hm with h | h | h | h <;> subst h <;>
      simp [riemannLoop, ruleSample, ih, add_assoc]

/-- On the recognized methods the two loops agree step by step. -/
theorem riemannLoop_eq_integrarLoop (f : α → Option α) (a dx : α) (method : String)
    (hm : method ∈ METODOS) (l : List ℕ) :
    ∀ suma : α, riemannLoop f a dx method l suma = integrarLoop f a dx method l suma := by
  induction l with
  | nil => intro suma; simp [riemannLoop, integrarLoop]
  | cons i resto ih =>
    intro suma
    simp only [METODOS, List.mem_cons, List.not_mem_nil, or_false] at hm
    rcases hm with h | h | h | h <;> subst h <;>
      simp only [riemannLoop, integrarLoop] <;>
      cases f (a + (i : α) * dx) <;>
      cases f (a + ((i : α) + 1) * dx) <;>
      cases f (a + ((i : α) + 1 / 2) * dx) <;>
      simp [ih]

/-- When the integrand faults everywhere, any recognized method faults on
the very first subinterval. -/
theorem riemannLoop_none_cons (a dx : α) (method : String) (hm : method ∈ METODOS)
    (i : ℕ) (resto : List ℕ) (suma : α) :
    riemannLoop (fun _ => (none : Option α)) a dx method (i :: resto) suma =
      .error .evalFault := by
  simp only [METODOS, List.mem_cons, List.not_mem_nil, or_false] at hm
  rcases hm with h | h | h | h <;> subst h <;> simp [riemannLoop]

/-- If some subinterval in the remaining work list samples a point where
the integrand raises, a recognized-method loop ends in the raised fault:
the loop either reaches that subinterval and faults there, or faults
earlier. -/
theorem riemannLoop_error_of_none (f : α → Option α) (a dx : α) (method : String)
    (hm : method ∈ METODOS) (l : List ℕ) :
    ∀ suma : α,
      (∃ i ∈ l, ∃ x ∈ puntosMuestreados a dx method i, f x = none) →
      riemannLoop f a dx method l suma = .error .evalFault := by
  induction l with
  | nil =>
    intro suma h
    simp at h
  | cons i resto ih =>
    intro suma h
    obtain ⟨i0, hi0, x, hx, hfx0⟩ := h
    simp only [METODOS, List.mem_cons, List.not_mem_nil, or_false] at hm
    rcases List.mem_cons.mp hi0 with rfl | hres
    · rcases hm with hme | hme | hme | hme <;> subst hme <;>
        simp only [puntosMuestreados] at hx <;> simp at hx
      · subst hx
        simp [riemannLoop, hfx0]
      · subst hx
        simp [riemannLoop, hfx0]
      · subst hx
        simp [riemannLoop, hfx0]
      · rcases hx with hx | hx <;> subst hx
        · simp [riemannLoop, hfx0]
        · cases hfl : f (a + (i0 : α) * dx)
          · simp [riemannLoop, hfl]
          · simp [riemannLoop, hfl, hfx0]
    · have hnext : ∃ j ∈ resto, ∃ x ∈ puntosMuestreados a dx method j, f x = none :=
        ⟨i0, hres, x, hx, hfx0⟩
      rcases hm with hme | hme | hme | hme <;> subst hme
      · cases hfl : f (a + (i : α) * dx)
        · simp [riemannLoop, hfl]
        · simp only [riemannLoop]
          simp [hfl]
          exact ih _ hnext
      · cases hfl : f (a + ((i : α) + 1) * dx)
        · simp [riemannLoop, hfl]
        · simp only [riemannLoop]
          simp [hfl]
          exact ih _ hnext
      · cases hfl : f (a + ((i : α) + 2⁻¹) * dx)
        · simp [riemannLoop, hfl]
        · simp only [riemannLoop]
          simp [hfl]
          exact ih _ hnext
      · cases hfl : f (a + (i : α) * dx) <;>
          cases hfr : f (a + ((i : α) + 1) * dx)
        · simp [riemannLoop, hfl]
        · simp [riemannLoop, hfl]
        · simp [riemannLoop, hfl, hfr]
        · simp only [riemannLoop]
          simp [hfl, hfr]
          exact ih _ hnext

/-- Claim C1: for every (totally defined) function, reals `a`, `b`, integer
`n ≥ 1` and recognized method, `riemann_sum` returns the sum over
subintervals `i = 0..n-1`, taken in index order, of `sample * Δx` with
`Δx = (b-a)/n`, the sample being the left edge, right edge, midpoint, or
averaged edge pair according to the method. -/
theorem C1_riemann_sum_formula (g : ℝ → ℝ) (a b : ℝ) (n : ℤ) (method : String)
    (hn : 1 ≤ n)
    (hm : method ∈ (["left", "right", "midpoint", "trapezoid"] : List String)) :
    riemann_sum (fun x => some (g x)) a b n method = .ok (riemannSpecSum g a b n method) := by
  have hn0 : ¬(n ≤ 0) := by omega
  rw [riemann_sum, if_neg hn0,
    riemannLoop_total g a ((b - a) / (n : ℝ)) method hm (List.range n.toNat), zero_add,
    riemannSpecSum]

/-- Witness for C1 at `g = id`, `[0, 1]`, `n = 2`, method `left`. -/
theorem C1_witness :
    1 ≤ (2:ℤ) ∧ "left" ∈ (["left", "right", "midpoint", "trapezoid"] : List String) ∧
      riemann_sum (fun x : ℝ => some x) 0 1 2 "left" =
        .ok (riemannSpecSum (fun x : ℝ => x) 0 1 2 "left") :=
  ⟨by decide, by decide,
    C1_riemann_sum_formula (fun x => x) 0 1 2 "left" (by decide) (by decide)⟩

/-- Counterexample to claim C2 as stated: when the integrand raises at a
required sample point (here at every point), `riemann_sum` does not yield
a typed undefined-evaluation outcome — the raised exception propagates to
the caller as a raw runtime fault (`Except.error .evalFault` models the
uncaught Python exception escaping `riemann_sum`). -/
theorem C2_counterexample :
    riemann_sum (fun _ : ℝ => (none : Option ℝ)) 0 1 1 "left" = .error .evalFault := by
  rw [riemann_sum, if_neg (by decide : ¬((1:ℤ) ≤ 0))]
  rw [show ((1:ℤ).toNat) = 1 from rfl, show List.range 1 = [0] from rfl]
  exact riemannLoop_none_cons 0 ((1 - 0) / ((1:ℤ) : ℝ)) "left" (by decide) 0 [] 0

/-- Claim C2 (amended): for `n ≥ 1` and a recognized method,
`riemann_sum` returns a finite real whenever the integrand is defined and
finite at every sampled point; and for every integrand whose evaluation
raises at some point the rule samples in the partition, the same call
crashes with the raw fault propagating to the caller — there is no typed
undefined-evaluation outcome in this code path. -/
theorem C2_amended (f : ℝ → Option ℝ) (g : ℝ → ℝ) (a b : ℝ) (n : ℤ) (method : String)
    (hn : 1 ≤ n)
    (hm : method ∈ (["left", "right", "midpoint", "trapezoid"] : List String)) :
    (∃ v : ℝ, riemann_sum (fun x => some (g x)) a b n method = .ok v) ∧
      ((∃ i < n.toNat, ∃ x ∈ puntosMuestreados a ((b - a) / (n : ℝ)) method i, f x = none) →
        riemann_sum f a b n method = .error .evalFault) := by
  have hn0 : ¬(n ≤ 0) := by omega
  refine ⟨⟨0 + ((List.range n.toNat).map
      (fun j => ruleSample g a ((b - a) / (n : ℝ)) method j * ((b - a) / (n : ℝ)))).sum, ?_⟩, ?_⟩
  · rw [riemann_sum, if_neg hn0]
    exact riemannLoop_total g a ((b - a) / (n : ℝ)) method hm (List.range n.toNat) 0
  · rintro ⟨i, hi, x, hx, hfx⟩
    rw [riemann_sum, if_neg hn0]
    exact riemannLoop_error_of_none f a ((b - a) / (n : ℝ)) method hm (List.range n.toNat) 0
      ⟨i, List.mem_range.mpr hi, x, hx, hfx⟩

/-- Witness for the amended C2 on `[0, 1]` with `n = 1`, method `left`:
a total integrand yields a result, and an integrand raising exactly at
the sampled point `0` crashes with the raw fault. -/
theorem C2_witness :
    1 ≤ (1 : ℤ) ∧
      "left" ∈ (["left", "right", "midpoint", "trapezoid"] : List String) ∧
      (∃ v : ℝ, riemann_sum (fun x : ℝ => some x) 0 1 1 "left" = .ok v) ∧
      riemann_sum (fun x : ℝ => if x = 0 then none else some x) 0 1 1 "left" =
        .error .evalFault :=
  ⟨by decide, by decide,
    (C2_amended (fun x : ℝ => if x = 0 then none else some x) (fun x : ℝ => x)
        0 1 1 "left" (by decide) (by decide)).1,
    (C2_amended (fun x : ℝ => if x = 0 then none else some x) (fun x : ℝ => x)
        0 1 1 "left" (by decide) (by decide)).2
      ⟨0, by decide, 0, by simp [puntosMuestreados], by simp⟩⟩

/-- Claim C7: for the constant function `f(x) = 1`, every interval
`a < b`, every `n ≥ 1` and each of the four methods, `riemann_sum`
returns exactly `b - a`. -/
theorem C7_riemann_constante (a b : ℝ) (n : ℤ) (method : String)
    (hab : a < b) (hn : 1 ≤ n)
    (hm : method ∈ (["left", "right", "midpoint", "trapezoid"] : List String)) :
    riemann_sum (fun _ : ℝ => some 1) a b n method = .ok (b - a) := by
  have hn0 : ¬(n ≤ 0) := by omega
  rw [show (fun _ : ℝ => some 1) = (fun x : ℝ => some ((fun _ : ℝ => (1:ℝ)) x)) from rfl,
    riemann_sum, if_neg hn0,
    riemannLoop_total (fun _ : ℝ => (1:ℝ)) a ((b - a) / (n : ℝ)) method hm (List.range n.toNat),
    zero_add]
  have hrs : ∀ i : ℕ, ruleSample (fun _ : ℝ => (1:ℝ)) a ((b - a) / (n : ℝ)) method i = 1 := by
    intro i
    simp only [List.mem_cons, List.not_mem_nil, or_false] at hm
    rcases hm with h | h | h | h <;> subst h <;> simp [ruleSample]
  simp only [hrs, one_mul]
  rw [List.map_const', List.length_range, List.sum_replicate, nsmul_eq_mul]
  have hcast : ((n.toNat : ℕ) : ℝ) = (n : ℝ) := by
    rw [show ((n.toNat : ℕ) : ℝ) = ((n.toNat : ℤ) : ℝ) by push_cast; ring,
      Int.toNat_of_nonneg (by omega)]
  rw [hcast, mul_div_cancel₀]
  exact Int.cast_ne_zero.mpr (by omega)

/-- Witness for C7 at `[0, 1]`, `n = 3`, method `trapezoid`. -/
theorem C7_witness :
    (0:ℝ) < 1 ∧ 1 ≤ (3:ℤ) ∧
      "trapezoid" ∈ (["left", "right", "midpoint", "trapezoid"] : List String) ∧
      riemann_sum (fun _ : ℝ => some 1) 0 1 3 "trapezoid" = .ok (1 - 0) :=
  ⟨zero_lt_one, by decide, by decide,
    C7_riemann_constante 0 1 3 "trapezoid" zero_lt_one (by decide) (by decide)⟩

/-- Claim C8: for every function and reals `a < b`,
`riemann_sum(f, a, b, 1, trapezoid)` equals exactly
`(f(a) + f(b)) / 2 * (b - a)`. -/
theorem C8_trapecio_n1 (g : ℝ → ℝ) (a b : ℝ) (hab : a < b) :
    riemann_sum (fun x => some (g x)) a b 1 "trapezoid" =
      .ok ((g a + g b) / 2 * (b - a)) := by
  rw [riemann_sum, if_neg (by decide : ¬((1:ℤ) ≤ 0)),
    show ((1:ℤ).toNat) = 1 from rfl, show List.range 1 = [0] from rfl]
  simp only [riemannLoop]
  norm_num
  simp

/-- Witness for C8 at `g = id`, `[0, 1]`. -/
theorem C8_witness :
    (0:ℝ) < 1 ∧ riemann_sum (fun x : ℝ => some x) 0 1 1 "trapezoid" =
      .ok ((0 + 1) / 2 * (1 - 0)) :=
  ⟨zero_lt_one, C8_trapecio_n1 (fun x => x) 0 1 zero_lt_one⟩

/-- Claim C9: for every function, reals `a`, `b`, `n ≥ 1` and recognized
method, the procedural `riemann_sum` of `Clase_Integrales.py` and the
`integrar` of a `RiemannIntegrator` constructed with that method
(`Int.py`) return equal results on identical inputs. -/
theorem C9_equivalencia (f : ℝ → Option ℝ) (a b : ℝ) (n : ℤ) (method : String)
    (R : RiemannIntegrator ℝ) (hn : 1 ≤ n)
    (hR : RiemannIntegrator.build f method = .ok R) :
    riemann_sum f a b n method = R.integrar a b n := by
  rw [RiemannIntegrator.build] at hR
  by_cases hm : method ∈ METODOS
  · rw [if_pos hm] at hR
    obtain rfl : (⟨f, method⟩ : RiemannIntegrator ℝ) = R := by
      simpa using hR
    have hn0 : ¬(n ≤ 0) := by omega
    rw [riemann_sum, RiemannIntegrator.integrar, if_neg hn0, if_neg hn0]
    exact riemannLoop_eq_integrarLoop f a ((b - a) / (n : ℝ)) method hm (List.range n.toNat) 0
  · rw [if_neg hm] at hR
    exact absurd hR (by simp)

/-- Witness for C9 at `[0, 1]`, `n = 2`, method `right`. -/
theorem C9_witness :
    1 ≤ (2:ℤ) ∧
      RiemannIntegrator.build (fun x : ℝ => some x) "right" =
        .ok ⟨fun x : ℝ => some x, "right"⟩ ∧
      riemann_sum (fun x : ℝ => some x) 0 1 2 "right" =
        RiemannIntegrator.integrar ⟨fun x : ℝ => some x, "right"⟩ 0 1 2 :=
  ⟨by decide, rfl,
    C9_equivalencia (fun x => some x) 0 1 2 "right" ⟨fun x => some x, "right"⟩ (by decide) rfl⟩

theorem isSome_of_isNone_false {o : Option ℝ} (h : o.isNone = false) : o.isSome = true := by
  cases o <;> simp_all

/-- A function with no undefined point passes every stage of the checker. -/
theorem verificar_true_of_total (f : ℝ → Option ℝ) (a b tol : ℝ)
    (h : ∀ x, (f x).isSome = true) : verificar_dominio f a b tol = true := by
  have hn : ∀ x, (f x).isNone = false := by
    intro x
    have := h x
    cases hfx : f x <;> simp_all
  have e1 : ((f a).isNone || (f b).isNone) = false := by rw [hn, hn]; rfl
  have e2 : (puntosUniformes a b).any (fun x => (f x).isNone) = false := by
    rw [List.any_eq_false]; intro x _; simp [hn]
  have e3 : (puntosRefinados f a b).any (fun x => (f x).isNone) = false := by
    rw [List.any_eq_false]; intro x _; simp [hn]
  have e4 : (puntosEspeciales a b).any (fun p => probeFalla f a b tol p) = false := by
    rw [List.any_eq_false]; intro p _; simp [probeFalla, hn]
  simp [verificar_dominio, e1, e2, e3, e4]

/-- A failing special-point probe forces the invalid verdict, whatever the
earlier stages did. -/
theorem verificar_false_of_special (f : ℝ → Option ℝ) (a b tol : ℝ)
    (h : (puntosEspeciales a b).any (fun p => probeFalla f a b tol p) = true) :
    verificar_dominio f a b tol = false := by
  rw [verificar_dominio]
  split_ifs <;> simp_all

/-- A valid verdict certifies every stage: no probe anywhere was undefined. -/
theorem verificar_eq_true_parts (f : ℝ → Option ℝ) (a b tol : ℝ)
    (h : verificar_dominio f a b tol = true) :
    (f a).isNone = false ∧ (f b).isNone = false ∧
      (∀ x ∈ puntosUniformes a b, (f x).isNone = false) ∧
      (∀ x ∈ puntosRefinados f a b, (f x).isNone = false) ∧
      (∀ p ∈ puntosEspeciales a b, probeFalla f a b tol p = false) := by
  rw [verificar_dominio] at h
  split_ifs at h with h1 h2 h3 h4
  simp only [Bool.or_eq_true, not_or, Bool.not_eq_true] at h1
  simp only [List.any_eq_true, not_exists, not_and, Bool.not_eq_true] at h2 h3 h4
  exact ⟨h1.1, h1.2, h2, h3, h4⟩

theorem le_pyInt_of_le {x : ℝ} {k : ℤ} (h : (k : ℝ) ≤ x) : k ≤ pyInt x := by
  rw [pyInt]; split
  · exact Int.le_floor.mpr h
  · calc k = ⌈((k : ℤ) : ℝ)⌉ := (Int.ceil_intCast k).symm
      _ ≤ ⌈x⌉ := Int.ceil_le_ceil h

theorem pyInt_le_of_le {x : ℝ} {k : ℤ} (h : x ≤ (k : ℝ)) : pyInt x ≤ k := by
  rw [pyInt]; split
  · calc ⌊x⌋ ≤ ⌊((k : ℤ) : ℝ)⌋ := Int.floor_le_floor h
      _ = k := Int.floor_intCast k
  · exact Int.ceil_le.mpr h

theorem mem_pyRange (lo hi k : ℤ) : k ∈ pyRange lo hi ↔ lo ≤ k ∧ k < hi := by
  rw [pyRange]
  simp only [List.mem_map, List.mem_range]
  constructor
  · rintro ⟨m, hm, rfl⟩; omega
  · rintro ⟨h1, h2⟩; exact ⟨(k - lo).toNat, by omega, by omega⟩

theorem mem_enterosEspeciales (a b x : ℝ) :
    x ∈ enterosEspeciales a b ↔ (∃ k : ℤ, x = (k : ℝ)) ∧ a ≤ x ∧ x ≤ b := by
  rw [enterosEspeciales]
  simp only [List.mem_filter, List.mem_map, mem_pyRange, decide_eq_true_eq]
  constructor
  · rintro ⟨⟨k, hk, rfl⟩, h2⟩
    exact ⟨⟨k, rfl⟩, h2⟩
  · rintro ⟨⟨k, rfl⟩, h2, h3⟩
    exact ⟨⟨k, ⟨pyInt_le_of_le h2, by have := le_pyInt_of_le h3; omega⟩, rfl⟩, h2, h3⟩

theorem mem_fraccionesComunes (a b x : ℝ) :
    x ∈ fraccionesComunes a b ↔
      (∃ i j : ℕ, 1 ≤ i ∧ i ≤ 20 ∧ j < i ∧ x = (j : ℝ) / (i : ℝ)) ∧ a ≤ x ∧ x ≤ b := by
  rw [fraccionesComunes]
  simp only [List.mem_flatMap, List.mem_filter, List.mem_map, List.mem_range,
    decide_eq_true_eq]
  constructor
  · rintro ⟨i0, hi0, ⟨⟨j, hj, rfl⟩, hin⟩⟩
    refine ⟨⟨i0 + 1, j, by omega, by omega, by omega, by push_cast; ring⟩, hin⟩
  · rintro ⟨⟨i, j, h1, h2, h3, rfl⟩, hin⟩
    refine ⟨i - 1, by omega, ⟨⟨j, by omega, ?_⟩, hin⟩⟩
    have : ((i - 1 : ℕ) : ℝ) + 1 = (i : ℝ) := by
      rw [Nat.cast_sub h1]; ring
    rw [this]

theorem mem_constantesEspeciales (a b x : ℝ) :
    x ∈ constantesEspeciales a b ↔
      x ∈ ([Real.pi, Real.exp 1, Real.sqrt 2, Real.sqrt 3] : List ℝ) ∧ a ≤ x ∧ x ≤ b := by
  rw [constantesEspeciales]
  simp only [List.mem_filter, decide_eq_true_eq]

/-- `0` is collected among the special integer points of `[-1, 1]`. -/
theorem zero_mem_puntosEspeciales : (0 : ℝ) ∈ puntosEspeciales (-1) 1 := by
  rw [puntosEspeciales]
  refine List.mem_append.mpr (Or.inl (List.mem_append.mpr (Or.inl ?_)))
  rw [mem_enterosEspeciales]
  exact ⟨⟨0, by norm_num⟩, by norm_num, by norm_num⟩

/-- Claim C5: `verificar_dominio` returns invalid for `f(x) = 1/x` over
`[-1, 1]` (the special integer point `0` is probed and the evaluation
raises) and valid for `f(x) = x^2` over `[0, 10]` (no probe anywhere can
fail), both at the default tolerance `1e-6`. -/
theorem C5_dominio_casos :
    verificar_dominio unoEntreX (-1) 1 (1e-6) = false ∧
      verificar_dominio cuadrado 0 10 (1e-6) = true := by
  constructor
  · apply verificar_false_of_special
    refine List.any_eq_true.mpr ⟨0, zero_mem_puntosEspeciales, ?_⟩
    simp [probeFalla, unoEntreX]
  · apply verificar_true_of_total
    intro x
    simp [cuadrado]

/-- Claim C4: the special-point pass probes exactly the set containing
every integer inside `[a,b]`, every rational `j/i` for `i` in `1..20` and
`j` in `0..i` inside `[a,b]` (the source iterates `j` in `0..i-1`, but the
extra `j = i` points of the claim all equal `1`, which the integer pass
already contributes whenever it lies in `[a,b]`, so the probed sets
coincide), and each of `π`, `e`, `√2`, `√3` inside `[a,b]`; for each such
point `p` it checks `p`, checks `p - tolerance` exactly when
`p - tolerance > a`, checks `p + tolerance` exactly when
`p + tolerance < b`; and a failing probe forces the `False` verdict. -/
theorem C4_puntos_especiales (f : ℝ → Option ℝ) (a b tolerancia : ℝ) :
    ({x : ℝ | x ∈ puntosEspeciales a b} =
      {x : ℝ | (∃ k : ℤ, x = (k : ℝ)) ∧ a ≤ x ∧ x ≤ b} ∪
        {x : ℝ | (∃ i j : ℕ, 1 ≤ i ∧ i ≤ 20 ∧ j ≤ i ∧ x = (j : ℝ) / (i : ℝ)) ∧
          a ≤ x ∧ x ≤ b} ∪
        {x : ℝ | x ∈ ([Real.pi, Real.exp 1, Real.sqrt 2, Real.sqrt 3] : List ℝ) ∧
          a ≤ x ∧ x ≤ b}) ∧
    (∀ p : ℝ, probeFalla f a b tolerancia p =
      ((f p).isNone
        || (decide (a < p - tolerancia) && (f (p - tolerancia)).isNone)
        || (decide (p + tolerancia < b) && (f (p + tolerancia)).isNone))) ∧
    ((∃ p ∈ puntosEspeciales a b, probeFalla f a b tolerancia p = true) →
      verificar_dominio f a b tolerancia = false) := by
  refine ⟨?_, ?_, ?_⟩
  · ext x
    simp only [Set.mem_setOf_eq, Set.mem_union, puntosEspeciales, List.mem_append,
      mem_enterosEspeciales, mem_fraccionesComunes, mem_constantesEspeciales]
    constructor
    · rintro ((h | h) | h)
      · exact Or.inl (Or.inl h)
      · obtain ⟨⟨i, j, h1, h2, h3, rfl⟩, hin⟩ := h
        exact Or.inl (Or.inr ⟨⟨i, j, h1, h2, by omega, rfl⟩, hin⟩)
      · exact Or.inr h
    · rintro ((h | h) | h)
      · exact Or.inl (Or.inl h)
      · obtain ⟨⟨i, j, h1, h2, h3, rfl⟩, hin⟩ := h
        rcases h3.lt_or_eq with hlt | rfl
        · exact Or.inl (Or.inr ⟨⟨i, j, h1, h2, hlt, rfl⟩, hin⟩)
        · have hi0 : (j : ℝ) ≠ 0 := Nat.cast_ne_zero.mpr (by omega)
          rw [div_self hi0] at hin ⊢
          exact Or.inl (Or.inl ⟨⟨1, by norm_num⟩, hin⟩)
      · exact Or.inr h
  · intro p
    rw [probeFalla,
      show decide (p > a + tolerancia) = decide (a < p - tolerancia) from
        decide_eq_decide.mpr (by constructor <;> intro h <;> linarith),
      show decide (p < b - tolerancia) = decide (p + tolerancia < b) from
        decide_eq_decide.mpr (by constructor <;> intro h <;> linarith)]
  · rintro ⟨p, hp, hfail⟩
    exact verificar_false_of_special f a b tolerancia (List.any_eq_true.mpr ⟨p, hp, hfail⟩)

/-- Witness for C4: a function undefined at the probed special point `0`
of `[-1, 1]` is rejected. -/
theorem C4_witness :
    verificar_dominio (fun x : ℝ => if x = 0 then none else some x) (-1) 1 1 = false :=
  (C4_puntos_especiales (fun x : ℝ => if x = 0 then none else some x) (-1) 1 1).2.2
    ⟨0, zero_mem_puntosEspeciales, by simp [probeFalla]⟩

/-- Claim C3: `verificar_dominio` always returns a boolean (it is a total
`Bool`-valued function, so no exception can escape: every evaluation
failure is a `none` sample absorbed by the checks) and it is fail-closed:
if the verdict is `True` then every point the procedure evaluated was
defined — contrapositively, any evaluation failure anywhere in the
procedure yields the verdict `False`. -/
theorem C3_fail_closed (f : ℝ → Option ℝ) (a b tolerancia : ℝ)
    (hab : a < b) (ht : 0 < tolerancia)
    (hv : verificar_dominio f a b tolerancia = true) :
    ∀ x ∈ puntosEvaluados f a b tolerancia, (f x).isSome = true := by
  obtain ⟨h1, h2, h3, h4, h5⟩ := verificar_eq_true_parts f a b tolerancia hv
  intro x hx
  rw [puntosEvaluados] at hx
  simp only [List.mem_cons, List.mem_append, List.mem_flatMap] at hx
  rcases hx with rfl | rfl | (hx | hx) | ⟨p, hp, hmem⟩
  · exact isSome_of_isNone_false h1
  · exact isSome_of_isNone_false h2
  · exact isSome_of_isNone_false (h3 x hx)
  · exact isSome_of_isNone_false (h4 x hx)
  · have hpf := h5 p hp
    rw [probeFalla] at hpf
    simp only [Bool.or_eq_false_iff, Bool.and_eq_false_iff] at hpf
    obtain ⟨⟨hA, hB⟩, hC⟩ := hpf
    rcases hmem with rfl | (hmem | hmem)
    · exact isSome_of_isNone_false hA
    · by_cases hg : p > a + tolerancia
      · rw [if_pos hg] at hmem
        rw [List.mem_singleton] at hmem
        subst hmem
        rcases hB with hB | hB
        · exact absurd hB (by simp [hg])
        · exact isSome_of_isNone_false hB
      · rw [if_neg hg] at hmem
        exact absurd hmem (List.not_mem_nil _)
    · by_cases hg : p < b - tolerancia
      · rw [if_pos hg] at hmem
        rw [List.mem_singleton] at hmem
        subst hmem
        rcases hC with hC | hC
        · exact absurd hC (by simp [hg])
        · exact isSome_of_isNone_false hC
      · rw [if_neg hg] at hmem
        exact absurd hmem (List.not_mem_nil _)

/-- Witness for C3: the total function `some` on `[0, 1]` passes, and the
endpoint `0` is among the evaluated points. -/
theorem C3_witness :
    (0 : ℝ) < 1 ∧ (0 : ℝ) < 1 ∧ ((fun x : ℝ => some x) 0).isSome = true :=
  ⟨zero_lt_one, zero_lt_one,
    C3_fail_closed (fun x => some x) 0 1 1 zero_lt_one zero_lt_one
      (verificar_true_of_total (fun x => some x) 0 1 1 (fun _ => rfl)) 0
      (List.mem_cons_self _ _)⟩

theorem linspace_length (c d : ℝ) (num : ℕ) : (linspace c d num).length = num := by
  simp [linspace]

theorem mem_linspace_bounds {c d : ℝ} (hcd : c ≤ d) {num : ℕ} {x : ℝ}
    (hx : x ∈ linspace c d num) : c ≤ x ∧ x ≤ d := by
  rw [linspace] at hx
  simp only [List.mem_map, List.mem_range] at hx
  obtain ⟨i, hi, rfl⟩ := hx
  rcases num with _ | m
  · omega
  · rcases m with _ | m'
    · have hi0 : i = 0 := by omega
      subst hi0
      norm_num
      exact hcd
    · have hm : (0 : ℝ) < ((m' + 2 : ℕ) : ℝ) - 1 := by push_cast; linarith
      have hstep : 0 ≤ (d - c) / (((m' + 2 : ℕ) : ℝ) - 1) :=
        div_nonneg (by linarith) hm.le
      constructor
      · nlinarith [mul_nonneg (Nat.cast_nonneg i : (0 : ℝ) ≤ (i : ℝ)) hstep]
      · have h1 : i ≤ m' + 1 := by omega
        have h2 : ((i : ℕ) : ℝ) ≤ ((m' + 1 : ℕ) : ℝ) := Nat.cast_le.mpr h1
        have hi' : (i : ℝ) ≤ ((m' + 2 : ℕ) : ℝ) - 1 := by
          push_cast at h2 ⊢
          linarith
        have hmul : (i : ℝ) * ((d - c) / (((m' + 2 : ℕ) : ℝ) - 1)) ≤
            (((m' + 2 : ℕ) : ℝ) - 1) * ((d - c) / (((m' + 2 : ℕ) : ℝ) - 1)) :=
          mul_le_mul_of_nonneg_right hi' hstep
        have heq : (((m' + 2 : ℕ) : ℝ) - 1) * ((d - c) / (((m' + 2 : ℕ) : ℝ) - 1)) =
            d - c := by
          rw [mul_comm]
          exact div_mul_cancel₀ _ (ne_of_gt hm)
        linarith

theorem linspace_getD (c d : ℝ) (num i : ℕ) (hi : i < num) :
    (linspace c d num).getD i 0 = c + (i : ℝ) * ((d - c) / ((num : ℝ) - 1)) := by
  rw [List.getD_eq_getElem _ _ (by simpa [linspace_length] using hi)]
  simp [linspace]

theorem diferenciasAbs_length (f : ℝ → Option ℝ) (a b : ℝ) :
    (diferenciasAbs f a b).length = 999 := by
  simp [diferenciasAbs, valoresUniformes, puntosUniformes, linspace_length]

theorem indicesSospechosos_lt (f : ℝ → Option ℝ) (a b : ℝ) (i : ℕ)
    (hi : i ∈ indicesSospechosos f a b) : i < 999 := by
  rw [indicesSospechosos] at hi
  have h := (List.mem_filter.mp hi).1
  rw [List.mem_range, diferenciasAbs_length] at h
  exact h

theorem puntosRefinados_bounds (f : ℝ → Option ℝ) {a b : ℝ} (hab : a ≤ b) {x : ℝ}
    (hx : x ∈ puntosRefinados f a b) : a ≤ x ∧ x ≤ b := by
  rw [puntosRefinados] at hx
  rw [List.mem_flatMap] at hx
  obtain ⟨i, hi, hx⟩ := hx
  have hi999 : i < 999 := indicesSospechosos_lt f a b i hi
  have hstep : 0 ≤ (b - a) / ((1000 : ℝ) - 1) := by
    apply div_nonneg (by linarith)
    norm_num
  have hu : (puntosUniformes a b).getD i 0 = a + (i : ℝ) * ((b - a) / ((1000 : ℝ) - 1)) := by
    rw [puntosUniformes, linspace_getD a b 1000 i (by omega)]
    norm_num
  have hv : (puntosUniformes a b).getD (i + 1) 0 =
      a + ((i : ℝ) + 1) * ((b - a) / ((1000 : ℝ) - 1)) := by
    rw [puntosUniformes, linspace_getD a b 1000 (i + 1) (by omega)]
    push_cast
    norm_num
  rw [hu, hv] at hx
  have huv : a + (i : ℝ) * ((b - a) / ((1000 : ℝ) - 1)) ≤
      a + ((i : ℝ) + 1) * ((b - a) / ((1000 : ℝ) - 1)) := by nlinarith
  obtain ⟨h1, h2⟩ := mem_linspace_bounds huv hx
  have hia : 0 ≤ (i : ℝ) * ((b - a) / ((1000 : ℝ) - 1)) :=
    mul_nonneg (Nat.cast_nonneg i) hstep
  have hib : a + ((i : ℝ) + 1) * ((b - a) / ((1000 : ℝ) - 1)) ≤ b := by
    have hile : (i : ℝ) + 1 ≤ 999 := by
      have : (i : ℝ) ≤ 998 := by exact_mod_cast (by omega : i ≤ 998)
      linarith
    have hmul : ((i : ℝ) + 1) * ((b - a) / ((1000 : ℝ) - 1)) ≤
        999 * ((b - a) / ((1000 : ℝ) - 1)) := mul_le_mul_of_nonneg_right hile hstep
    have h999 : (999 : ℝ) * ((b - a) / ((1000 : ℝ) - 1)) = b - a := by
      norm_num
      rw [mul_comm]
      exact div_mul_cancel₀ _ (by norm_num)
    linarith
  exact ⟨by linarith, by linarith⟩

theorem puntosEspeciales_bounds {a b x : ℝ} (hx : x ∈ puntosEspeciales a b) :
    a ≤ x ∧ x ≤ b := by
  rw [puntosEspeciales] at hx
  simp only [List.mem_append] at hx
  rcases hx with (h | h) | h
  · exact ((mem_enterosEspeciales a b x).mp h).2
  · exact ((mem_fraccionesComunes a b x).mp h).2
  · exact ((mem_constantesEspeciales a b x).mp h).2

/-- Claim C10: for `a < b` and `tolerance > 0`, every point at which
`verificar_dominio` evaluates `f` — endpoints, uniform grid, refined
probes inside suspicious gaps, special points and their guarded
`± tolerance` probes — lies within `[a, b]`. -/
theorem C10_puntos_en_intervalo (f : ℝ → Option ℝ) (a b tolerancia : ℝ)
    (hab : a < b) (ht : 0 < tolerancia) :
    ∀ x ∈ puntosEvaluados f a b tolerancia, a ≤ x ∧ x ≤ b := by
  intro x hx
  rw [puntosEvaluados] at hx
  simp only [List.mem_cons, List.mem_append, List.mem_flatMap] at hx
  rcases hx with rfl | rfl | (hx | hx) | ⟨p, hp, hmem⟩
  · exact ⟨le_refl _, hab.le⟩
  · exact ⟨hab.le, le_refl _⟩
  · exact mem_linspace_bounds hab.le (by rwa [puntosUniformes] at hx)
  · exact puntosRefinados_bounds f hab.le hx
  · obtain ⟨hpa, hpb⟩ := puntosEspeciales_bounds hp
    rcases hmem with rfl | (hmem | hmem)
    · exact ⟨hpa, hpb⟩
    · by_cases hg : p > a + tolerancia
      · rw [if_pos hg, List.mem_singleton] at hmem
        subst hmem
        constructor <;> linarith
      · rw [if_neg hg] at hmem
        exact absurd hmem (List.not_mem_nil _)
    · by_cases hg : p < b - tolerancia
      · rw [if_pos hg, List.mem_singleton] at hmem
        subst hmem
        constructor <;> linarith
      · rw [if_neg hg] at hmem
        exact absurd hmem (List.not_mem_nil _)

/-- Witness for C10 at `f = some`, `[0, 1]`, `tolerance = 1`, point `0`. -/
theorem C10_witness :
    (0 : ℝ) < 1 ∧ (0 : ℝ) < 1 ∧ ((0 : ℝ) ≤ 0 ∧ (0 : ℝ) ≤ 1) :=
  ⟨zero_lt_one, zero_lt_one,
    C10_puntos_en_intervalo (fun x => some x) 0 1 1 zero_lt_one zero_lt_one 0
      (List.mem_cons_self _ _)⟩

/-- Claim C6 fails on the code: at the failing input `approx = 1`,
`exact = 0` the comparison computes `abs_error = |0 - 1| = 1` correctly,
but then evaluates `error / abs(exact)` anyway — the only guard in the
source is availability of `exact`, not `exact != 0` — so the division by
zero is performed and raises `ZeroDivisionError` (uncaught in
`interfaz_usuario`; swallowed by the bare `except` in
`_mostrar_resultados`), instead of the relative error being marked
undefined. -/
theorem C6_comparacion_divide_por_cero :
    comparacionError 1 0 = (1, .error .zeroDivisionError) := by
  simp [comparacionError, pyDiv, Except.map]
